import Mathlib

/-!
Verification of the hewpao-frontend pagination and detail-edit components.

The definitions below are a shallow embedding of the two source files:

* `src/app/component/ProductCard.tsx` — the paginated list accumulator:
  its component-local state (page, hasMore, allProducts, isLoadingMore,
  lastLoadedPage ref), the `useEffect` response handler, the
  `handleManualLoad` trigger, and the render-time identifier guard.
* the product detail page (`ProductDetailPage`) — the edit-mode toggle:
  `handleEdit`, `handleCancel`, `handleConfirm`, `handleChange`.

JavaScript values are embedded as follows: a product's possibly-missing
fields become `Option` fields (`undefined` is `none`); the strict
equality `existingProduct.id === newProduct.id` on raw identifier fields
becomes `BEq` on `Option String` (so two absent identifiers compare
equal, as `undefined === undefined` does); the react-query result is an
inductive `ApiResponse` distinguishing a reported error, an absent or
null `data` field, a non-array `data` field, and an array payload.
-/

namespace HewpaoFrontend

/-- A product-request record as consumed by `ProductCard.tsx`.
Fields are the ones the component reads: `id`, `name`, `images`,
`deliver_from`, `deliver_to`, `budget`; each may be absent in a raw
API record, hence `Option`. -/
structure Product where
  id : Option String
  name : Option String
  images : List String
  deliver_from : Option String
  deliver_to : Option String
  budget : Option Int
deriving Repr, DecidableEq

/-- The outcome of one `useGetPaginatedProductRequests` cycle as observed
by the `useEffect` handler, mirroring the checks in the source:
`fetchError` is the `error` branch (line 41); `missingData` is
`productData` absent or `productData.data` undefined/null (the
`hasValidData` check, lines 48–51); `invalidData` is a present `data`
field that is not an array (the `Array.isArray` check, line 54);
`dataArr` is an array payload (possibly empty — an empty array passes
`Array.isArray`). -/
inductive ApiResponse where
  | fetchError : ApiResponse
  | missingData : ApiResponse
  | invalidData : ApiResponse
  | dataArr : List Product → ApiResponse
deriving Repr, DecidableEq

/-- The component-local state of `ProductCard`: `page`, `hasMore`,
`allProducts`, `isLoadingMore` from `useState`, and the
`lastLoadedPage` ref. -/
structure ListState where
  page : Nat
  hasMore : Bool
  allProducts : List Product
  isLoadingMore : Bool
  lastLoadedPage : Nat
deriving Repr, DecidableEq

/-- Initial state per mount: `page = 1`, `hasMore = true`,
`allProducts = []`, `isLoadingMore = false`, `lastLoadedPage.current = 0`. -/
def initialState : ListState :=
  { page := 1, hasMore := true, allProducts := [], isLoadingMore := false,
    lastLoadedPage := 0 }

/-- `const pageSize = 8` — items per page. -/
def pageSize : Nat := 8

/-- The `newProducts` filter (lines 67–72): response items whose `id`
does not strictly equal the `id` of any already-accumulated item. -/
def newUniqueProducts (data prev : List Product) : List Product :=
  data.filter (fun newProduct =>
    ! prev.any (fun existingProduct => existingProduct.id == newProduct.id))

/-- The `setAllProducts` updater (lines 62–80), list component: page 1
returns the response verbatim; later pages append the `newProducts`
filter result to the previous list. -/
def mergeProducts (page : Nat) (data prev : List Product) : List Product :=
  if page = 1 then data
  else prev ++ newUniqueProducts data prev

/-- The `setHasMore(false)` call issued from inside the `setAllProducts`
updater (lines 74–77): it is only reached when `page ≠ 1` (the page-1
branch returns early at line 64), and fires when the response is shorter
than `pageSize` or contributed zero new unique items. -/
def mergeHasMore (page : Nat) (data prev : List Product) (hasMore : Bool) : Bool :=
  if page = 1 then hasMore
  else if data.length < pageSize ∨ (newUniqueProducts data prev).length = 0
  then false
  else hasMore

/-- The body of the `useEffect` response handler (lines 32–93) as a state
transformer. In order, as in the source: the `lastLoadedPage` guard
(lines 36–38) returns with no state change; the error branch (lines
41–45) only clears `isLoadingMore`; a valid data array (lines 57–80)
records `lastLoadedPage`, merges the list, possibly clears `hasMore`,
and clears `isLoadingMore`; otherwise (lines 81–89) page 1 resets the
list, `hasMore` becomes false, and `isLoadingMore` clears (line 92). -/
def effectStep (s : ListState) (resp : ApiResponse) : ListState :=
  if s.lastLoadedPage = s.page then s
  else
    match resp with
    | .fetchError => { s with isLoadingMore := false }
    | .dataArr data =>
        { s with
          lastLoadedPage := s.page
          allProducts := mergeProducts s.page data s.allProducts
          hasMore := mergeHasMore s.page data s.allProducts s.hasMore
          isLoadingMore := false }
    | _ =>
        { s with
          allProducts := if s.page = 1 then [] else s.allProducts
          hasMore := false
          isLoadingMore := false }

/-- `handleManualLoad` (lines 96–101): no-op when already loading or
`hasMore` is false; otherwise sets the in-flight flag and advances the
page by one. -/
def handleManualLoad (s : ListState) : ListState :=
  if s.isLoadingMore = true ∨ s.hasMore = false then s
  else { s with isLoadingMore := true, page := s.page + 1 }

/-- JavaScript truthiness of the raw `product.id` field used by the
render guard `if (!product || !product.id) return null` (line 133):
an absent identifier and the empty string are both falsy. -/
def idTruthy : Option String → Bool
  | none => false
  | some str => str ≠ ""

/-- The products actually rendered by `allProducts.map` (lines 131–133):
entries without a truthy `id` are skipped. -/
def renderedProducts (l : List Product) : List Product :=
  l.filter (fun product => idTruthy product.id)

/-- An event observed by the component: one resolution of the paged
query processed by the `useEffect` handler, or one click of the
"Load More" button. -/
inductive Event where
  | fetch : ApiResponse → Event
  | loadMore : Event
deriving Repr, DecidableEq

/-- One event applied to the component state. -/
def stepEvent (s : ListState) : Event → ListState
  | .fetch resp => effectStep s resp
  | .loadMore => handleManualLoad s

/-- A sequence of events applied from a starting state. -/
def runEvents (s : ListState) (es : List Event) : ListState :=
  es.foldl stepEvent s

/-- The component states reachable from a fresh mount. -/
inductive Reachable : ListState → Prop where
  | init : Reachable initialState
  | step (s : ListState) (e : Event) : Reachable s → Reachable (stepEvent s e)

/-! ### Product detail page (`ProductDetailPage`) -/

/-- A catalog product as resolved on the detail page from the mock
catalog: the fields the page reads are `id`, `name`, `desc`, `budget`,
`category`, `images` (plus a selected-offer sub-record, irrelevant to
the edit state). -/
structure DetailProduct where
  id : String
  name : String
  desc : String
  budget : Option Int
  category : Option String
  images : List String
deriving Repr, DecidableEq

/-- The `editedProduct` working copy. `handleChange` writes the property
named by the originating input: the name input carries `name="name"`,
the category input carries `name="category"`, but the description
textarea carries `name="description"`, a property distinct from the
`desc` field the catalog record uses — so a description edit adds a
fresh `description` property to the working copy instead of updating
`desc`. The `description` field below models that dynamically-added
property, absent (`none`) on the pristine catalog record. -/
structure EditedProduct where
  product : DetailProduct
  description : Option String
deriving Repr, DecidableEq

/-- The working copy as first constructed by
`useState(product)` — the catalog record itself, which carries no
`description` property. -/
def initEditedProduct (p : DetailProduct) : EditedProduct :=
  { product := p, description := none }

/-- The detail page's two pieces of local state: `isEditing`
(default off) and the `editedProduct` working copy. -/
structure EditState where
  isEditing : Bool
  editedProduct : EditedProduct
deriving Repr, DecidableEq

/-- The detail page's state right after mount for a found product. -/
def initEditState (p : DetailProduct) : EditState :=
  { isEditing := false, editedProduct := initEditedProduct p }

/-- A field-change event delivered to `handleChange`: the `name`
attribute of the originating form control together with its new value.
The three editable controls carry the names `name`, `description`
and `category`. -/
inductive FieldChange where
  | name : String → FieldChange
  | description : String → FieldChange
  | category : String → FieldChange
deriving Repr, DecidableEq

/-- The spread-update `{ ...prevState, [name]: value }` performed by
`handleChange` on the working copy. -/
def applyField : FieldChange → EditedProduct → EditedProduct
  | .name v, ep => { ep with product := { ep.product with name := v } }
  | .description v, ep => { ep with description := some v }
  | .category v, ep => { ep with product := { ep.product with category := some v } }

/-- `handleChange`: updates the named field of the working copy. -/
def handleChange (c : FieldChange) (st : EditState) : EditState :=
  { st with editedProduct := applyField c st.editedProduct }

/-- `handleEdit`: `setIsEditing(true)`, nothing else. -/
def handleEdit (st : EditState) : EditState :=
  { st with isEditing := true }

/-- `handleCancel`: `setIsEditing(false)` and
`setEditedProduct(product)` — the working copy is reset to the original
catalog record `p`. -/
def handleCancel (p : DetailProduct) (_st : EditState) : EditState :=
  { isEditing := false, editedProduct := initEditedProduct p }

/-- `handleConfirm`: `setIsEditing(false)` only (the log line has no
state effect). -/
def handleConfirm (st : EditState) : EditState :=
  { st with isEditing := false }

/-- A sequence of field changes applied to the edit state. -/
def runChanges (st : EditState) (cs : List FieldChange) : EditState :=
  cs.foldl (fun acc c => handleChange c acc) st

/-! ### Auxiliary predicates and concrete fixtures used in the proofs -/

/-- An event is benign for the duplicate-identifier invariant when any
array payload it carries has pairwise-distinct raw `id` fields. -/
def eventHasNodupIds : Event → Prop
  | .fetch (.dataArr data) => (data.map Product.id).Nodup
  | _ => True

/-- Structural invariant of the running component: the last-loaded-page
marker never runs ahead of the current page, and while a load-more
request is in flight the current page is not yet marked loaded. -/
def GoodState (s : ListState) : Prop :=
  s.lastLoadedPage ≤ s.page ∧ (s.isLoadingMore = true → s.lastLoadedPage ≠ s.page)

/-- Concrete product fixture with identifier `a`. -/
def prodA : Product :=
  { id := some "a", name := some "Alpha", images := [],
    deliver_from := none, deliver_to := none, budget := none }

/-- Concrete product fixture with identifier `b`. -/
def prodB : Product :=
  { id := some "b", name := some "Beta", images := [],
    deliver_from := none, deliver_to := none, budget := none }

/-- Concrete product fixture with an absent identifier. -/
def prodNoId : Product :=
  { id := none, name := some "Ghost", images := [],
    deliver_from := none, deliver_to := none, budget := none }

/-- A second, distinct product fixture with an absent identifier. -/
def prodNoId2 : Product :=
  { id := none, name := some "Phantom", images := [],
    deliver_from := none, deliver_to := none, budget := none }

/-! ## Theorems -/

/-- C5: when the last-loaded-page marker already equals the current
page, the response-handling step is skipped entirely: the whole state —
in particular the accumulated list, the has-more flag and the marker —
is left unchanged, whatever the response was. -/
theorem effectStep_skips_already_loaded_page (s : ListState) (resp : ApiResponse)
    (h : s.lastLoadedPage = s.page) : effectStep s resp = s := by
  simp [effectStep, h]

theorem effectStep_skips_already_loaded_page_witness :
    effectStep
      { page := 2, hasMore := true, allProducts := [prodA],
        isLoadingMore := false, lastLoadedPage := 2 }
      (.dataArr [prodB])
    = { page := 2, hasMore := true, allProducts := [prodA],
        isLoadingMore := false, lastLoadedPage := 2 } :=
  effectStep_skips_already_loaded_page
    { page := 2, hasMore := true, allProducts := [prodA],
      isLoadingMore := false, lastLoadedPage := 2 }
    (.dataArr [prodB]) rfl

/-- C6: the manual load-more trigger is a no-op (the whole state, hence
also the page number, is unchanged) when an operation is in flight or
has-more is false; otherwise it sets the in-flight flag and advances the
page number by exactly one, changing nothing else. -/
theorem handleManualLoad_spec (s : ListState) :
    (s.isLoadingMore = true ∨ s.hasMore = false → handleManualLoad s = s) ∧
    (s.isLoadingMore = false → s.hasMore = true →
      handleManualLoad s = { s with isLoadingMore := true, page := s.page + 1 }) := by
  constructor
  · intro h
    simp only [handleManualLoad, if_pos h]
  · intro h1 h2
    simp [handleManualLoad, h1, h2]

theorem handleManualLoad_spec_witness :
    handleManualLoad
      { page := 3, hasMore := true, allProducts := [prodA],
        isLoadingMore := true, lastLoadedPage := 2 }
    = { page := 3, hasMore := true, allProducts := [prodA],
        isLoadingMore := true, lastLoadedPage := 2 } ∧
    handleManualLoad
      { page := 3, hasMore := true, allProducts := [prodA],
        isLoadingMore := false, lastLoadedPage := 3 }
    = { page := 4, hasMore := true, allProducts := [prodA],
        isLoadingMore := true, lastLoadedPage := 3 } :=
  ⟨(handleManualLoad_spec
      { page := 3, hasMore := true, allProducts := [prodA],
        isLoadingMore := true, lastLoadedPage := 2 }).1 (Or.inl rfl),
   (handleManualLoad_spec
      { page := 3, hasMore := true, allProducts := [prodA],
        isLoadingMore := false, lastLoadedPage := 3 }).2 rfl rfl⟩

/-- C8: on the detail page, for every found product and every sequence
of field changes applied during edit mode, cancelling restores the
initial detail-page state: edit mode is off and the working copy equals
the original product exactly (edit-then-cancel is the identity on the
working copy). -/
theorem cancel_restores_original (p : DetailProduct) (cs : List FieldChange) :
    handleCancel p (runChanges (handleEdit (initEditState p)) cs) = initEditState p ∧
    (handleCancel p (runChanges (handleEdit (initEditState p)) cs)).editedProduct
      = initEditedProduct p ∧
    (handleCancel p (runChanges (handleEdit (initEditState p)) cs)).isEditing = false :=
  ⟨rfl, rfl, rfl⟩

/-- C9: confirming changes only the edit-mode boolean (to off) and
leaves the working copy untouched, so entering edit mode again still
shows the previously edited working copy, not the original record. -/
theorem confirm_keeps_working_copy (st : EditState) :
    (handleConfirm st).isEditing = false ∧
    (handleConfirm st).editedProduct = st.editedProduct ∧
    (handleEdit (handleConfirm st)).isEditing = true ∧
    (handleEdit (handleConfirm st)).editedProduct = st.editedProduct :=
  ⟨rfl, rfl, rfl, rfl⟩

/-- The boolean duplicate filter of the source agrees with the
declarative description "items whose identifier is not already present
in the accumulated list". -/
theorem newUniqueProducts_eq_not_present (data prev : List Product) :
    newUniqueProducts data prev =
      data.filter (fun newProduct =>
        decide (∀ existingProduct ∈ prev,
          existingProduct.id ≠ newProduct.id)) := by
  unfold newUniqueProducts
  apply List.filter_congr
  intro a _
  rw [Bool.eq_iff_iff]
  simp [List.any_eq_true]

/-- C1: merge postcondition for a valid non-empty response array (the
guard hypothesis says the page has not already been merged, so the
updater actually runs): on the first page the accumulated list becomes
the response verbatim; on every later page it becomes the old list
followed by exactly those response items whose identifiers are not
already present in the old list, in response order. -/
theorem merge_postcondition (s : ListState) (data : List Product)
    (hguard : s.lastLoadedPage ≠ s.page) (_hne : data ≠ []) :
    (s.page = 1 → (effectStep s (.dataArr data)).allProducts = data) ∧
    (1 < s.page → (effectStep s (.dataArr data)).allProducts =
      s.allProducts ++ data.filter (fun newProduct =>
        decide (∀ existingProduct ∈ s.allProducts,
          existingProduct.id ≠ newProduct.id))) := by
  constructor
  · intro h1
    rw [h1] at hguard
    simp [effectStep, hguard, mergeProducts, h1]
  · intro h2
    have h1 : ¬ s.page = 1 := by omega
    simp [effectStep, hguard, mergeProducts, h1, newUniqueProducts_eq_not_present]

theorem merge_postcondition_witness :
    (effectStep initialState (.dataArr [prodA, prodB])).allProducts
      = [prodA, prodB] ∧
    (effectStep
        { page := 2, hasMore := true, allProducts := [prodA],
          isLoadingMore := false, lastLoadedPage := 1 }
        (.dataArr [prodA, prodB])).allProducts
      = [prodA] ++ List.filter (fun newProduct =>
          decide (∀ existingProduct ∈ [prodA],
            existingProduct.id ≠ newProduct.id)) [prodA, prodB] :=
  ⟨(merge_postcondition initialState [prodA, prodB]
      (by decide) (by decide)).1 rfl,
   (merge_postcondition
      { page := 2, hasMore := true, allProducts := [prodA],
        isLoadingMore := false, lastLoadedPage := 1 }
      [prodA, prodB] (by decide) (by decide)).2 (by decide)⟩

/-- C3 counterexample: page 1 (the first page, current in the initial
state) returns a valid array of one item, fewer than the page size of
eight, yet after the merge step the has-more flag is still true — the
page-1 branch of the updater returns before the has-more check. -/
theorem short_first_page_keeps_hasMore_counterexample :
    ([prodA] : List Product).length < pageSize ∧
    (effectStep initialState (.dataArr [prodA])).hasMore = true := by
  decide

/-- C3 amended: for every page greater than 1 whose response is actually
merged (guard passed), a valid array shorter than the page size makes
the has-more flag false; and once false, no event — neither a response
nor a manual load-more — ever sets it back to true. -/
theorem short_page_exhausts_hasMore_amended (s : ListState) (data : List Product)
    (hpage : 1 < s.page) (hguard : s.lastLoadedPage ≠ s.page)
    (hshort : data.length < pageSize) :
    (effectStep s (.dataArr data)).hasMore = false ∧
    (∀ (t : ListState) (e : Event), t.hasMore = false →
      (stepEvent t e).hasMore = false) := by
  constructor
  · have h1 : ¬ s.page = 1 := by omega
    simp [effectStep, hguard, mergeHasMore, h1, hshort]
  · intro t e ht
    cases e with
    | loadMore =>
        simp [stepEvent, handleManualLoad, ht]
    | fetch resp =>
        cases resp with
        | fetchError => by_cases hg : t.lastLoadedPage = t.page <;>
            simp [stepEvent, effectStep, hg, ht]
        | missingData => by_cases hg : t.lastLoadedPage = t.page <;>
            simp [stepEvent, effectStep, hg, ht]
        | invalidData => by_cases hg : t.lastLoadedPage = t.page <;>
            simp [stepEvent, effectStep, hg, ht]
        | dataArr d => by_cases hg : t.lastLoadedPage = t.page <;>
            simp [stepEvent, effectStep, mergeHasMore, hg, ht]

theorem short_page_exhausts_hasMore_amended_witness :
    (effectStep
      { page := 2, hasMore := true, allProducts := [prodA],
        isLoadingMore := false, lastLoadedPage := 1 }
      (.dataArr [prodB])).hasMore = false :=
  (short_page_exhausts_hasMore_amended
    { page := 2, hasMore := true, allProducts := [prodA],
      isLoadingMore := false, lastLoadedPage := 1 }
    [prodB] (by decide) (by decide) (by decide)).1

/-- C4 counterexample: an empty array passes the `Array.isArray` check
and is handled by the valid-data branch, whose page-1 path returns
before the has-more check — so on the first page, with an empty-array
response, the has-more flag stays true, while the claim requires it to
become false for every absent, malformed or empty response. -/
theorem empty_first_page_keeps_hasMore_counterexample :
    (effectStep initialState (.dataArr [])).hasMore = true := by
  decide

/-- C4 amended: for absent or malformed (non-array) responses the claim
holds as stated: on the first page the accumulated list is reset to
empty, and at every page the has-more flag becomes false. An empty
array, however, takes the valid-data branch: on the first page it
replaces the list (leaving it empty) but leaves the has-more flag
unchanged; on later pages it leaves the list unchanged and sets the
has-more flag false. -/
theorem invalid_or_empty_response_amended (s : ListState)
    (hguard : s.lastLoadedPage ≠ s.page) :
    ((effectStep s .missingData).hasMore = false) ∧
    ((effectStep s .invalidData).hasMore = false) ∧
    (s.page = 1 → (effectStep s .missingData).allProducts = []) ∧
    (s.page = 1 → (effectStep s .invalidData).allProducts = []) ∧
    (s.page = 1 → (effectStep s (.dataArr [])).allProducts = [] ∧
      (effectStep s (.dataArr [])).hasMore = s.hasMore) ∧
    (1 < s.page → (effectStep s (.dataArr [])).allProducts = s.allProducts ∧
      (effectStep s (.dataArr [])).hasMore = false) := by
  refine ⟨?_, ?_, ?_, ?_, ?_, ?_⟩
  · simp [effectStep, hguard]
  · simp [effectStep, hguard]
  · intro h1
    rw [h1] at hguard
    simp [effectStep, hguard, h1]
  · intro h1
    rw [h1] at hguard
    simp [effectStep, hguard, h1]
  · intro h1
    rw [h1] at hguard
    constructor
    · simp [effectStep, hguard, mergeProducts, h1]
    · simp [effectStep, hguard, mergeHasMore, h1]
  · intro h2
    have h1 : ¬ s.page = 1 := by omega
    constructor
    · simp [effectStep, hguard, mergeProducts, newUniqueProducts, h1]
    · simp [effectStep, hguard, mergeHasMore, h1, pageSize]

theorem invalid_or_empty_response_amended_witness :
    (effectStep initialState .missingData).hasMore = false ∧
    (effectStep initialState (.dataArr [])).allProducts = [] ∧
    (effectStep initialState (.dataArr [])).hasMore = true := by
  have h := invalid_or_empty_response_amended initialState (by decide)
  exact ⟨h.1, (h.2.2.2.2.1 rfl).1, (h.2.2.2.2.1 rfl).2⟩

/-- The merge keeps the identifier list duplicate-free provided both the
old list and the incoming array are duplicate-free on identifiers. -/
theorem mergeProducts_map_id_nodup (page : Nat) (data prev : List Product)
    (hprev : (prev.map Product.id).Nodup) (hdata : (data.map Product.id).Nodup) :
    ((mergeProducts page data prev).map Product.id).Nodup := by
  unfold mergeProducts
  split
  · exact hdata
  · rw [List.map_append]
    refine List.Nodup.append hprev ?_ ?_
    · refine List.Nodup.sublist ?_ hdata
      exact List.Sublist.map _ (List.filter_sublist _)
    · intro a ha hb
      rcases List.mem_map.mp ha with ⟨p0, hp0mem, hp0id⟩
      rcases List.mem_map.mp hb with ⟨q, hqmem, hqid⟩
      unfold newUniqueProducts at hqmem
      have hqf := (List.mem_filter.mp hqmem).2
      have hany : prev.any (fun ex => ex.id == q.id) = true :=
        List.any_eq_true.mpr ⟨p0, hp0mem, by simp [hp0id, hqid]⟩
      simp [hany] at hqf

/-- One event preserves duplicate-freedom of the accumulated
identifiers, provided any array it delivers is duplicate-free. -/
theorem stepEvent_preserves_nodup_ids (s : ListState) (e : Event)
    (he : eventHasNodupIds e)
    (hs : (s.allProducts.map Product.id).Nodup) :
    ((stepEvent s e).allProducts.map Product.id).Nodup := by
  cases e with
  | loadMore =>
      simp only [stepEvent]
      unfold handleManualLoad
      split
      · exact hs
      · exact hs
  | fetch resp =>
      simp only [stepEvent]
      unfold effectStep
      split
      · exact hs
      · cases resp with
        | fetchError => exact hs
        | missingData =>
            by_cases h1 : s.page = 1 <;> simp [h1, hs]
        | invalidData =>
            by_cases h1 : s.page = 1 <;> simp [h1, hs]
        | dataArr d =>
            exact mergeProducts_map_id_nodup s.page d s.allProducts hs he

/-- C2 counterexample: the claim fails as stated, because the code never
de-duplicates within a single response: a first-page response that
itself repeats an identifier is stored verbatim, so after the single
merge step `fetch (dataArr [prodA, prodA])` from the empty list the
accumulated list carries the identifier `a` twice. -/
theorem accumulated_list_dup_ids_counterexample :
    ¬ (((runEvents initialState
        [Event.fetch (.dataArr [prodA, prodA])]).allProducts.map
          Product.id).Nodup) := by
  decide

/-- C2 amended: for every sequence of events whose array payloads are
each duplicate-free on identifiers, the accumulated list (starting from
the empty list of a fresh mount) never contains two entries with the
same identifier. -/
theorem accumulated_list_nodup_ids_amended (es : List Event)
    (h : ∀ e ∈ es, eventHasNodupIds e) :
    ((runEvents initialState es).allProducts.map Product.id).Nodup := by
  suffices general : ∀ (l : List Event) (s : ListState),
      (∀ e ∈ l, eventHasNodupIds e) →
      (s.allProducts.map Product.id).Nodup →
      ((runEvents s l).allProducts.map Product.id).Nodup by
    exact general es initialState h (by simp [initialState])
  intro l
  induction l with
  | nil => intro s _ hs; exact hs
  | cons e rest ih =>
      intro s hl hs
      exact ih (stepEvent s e)
        (fun x hx => hl x (List.mem_cons_of_mem e hx))
        (stepEvent_preserves_nodup_ids s e (hl e (List.mem_cons_self e rest)) hs)

theorem accumulated_list_nodup_ids_amended_witness :
    (((runEvents initialState
        [Event.fetch (.dataArr [prodA, prodB]), Event.loadMore,
         Event.fetch (.dataArr [prodB, prodNoId])]).allProducts.map
          Product.id).Nodup) :=
  accumulated_list_nodup_ids_amended _ (by
    intro e he
    simp only [List.mem_cons, List.not_mem_nil, or_false] at he
    rcases he with rfl | rfl | rfl
    · show (([prodA, prodB].map Product.id).Nodup)
      decide
    · trivial
    · show (([prodB, prodNoId].map Product.id).Nodup)
      decide)

/-- One event preserves the structural invariant `GoodState`. -/
theorem stepEvent_preserves_goodState (s : ListState) (e : Event)
    (h : GoodState s) : GoodState (stepEvent s e) := by
  obtain ⟨h1, h2⟩ := h
  cases e with
  | loadMore =>
      simp only [stepEvent]
      unfold handleManualLoad
      split
      · exact ⟨h1, h2⟩
      · constructor
        · show s.lastLoadedPage ≤ s.page + 1
          omega
        · intro _
          show s.lastLoadedPage ≠ s.page + 1
          omega
  | fetch resp =>
      simp only [stepEvent]
      unfold effectStep
      split
      · exact ⟨h1, h2⟩
      · cases resp with
        | fetchError => exact ⟨h1, fun hl => Bool.noConfusion hl⟩
        | missingData => exact ⟨h1, fun hl => Bool.noConfusion hl⟩
        | invalidData => exact ⟨h1, fun hl => Bool.noConfusion hl⟩
        | dataArr d => exact ⟨Nat.le_refl _, fun hl => Bool.noConfusion hl⟩

/-- Every state reachable from a fresh mount satisfies `GoodState`: in
particular, while a load-more request is in flight the current page is
never already marked loaded. -/
theorem reachable_goodState (s : ListState) (h : Reachable s) : GoodState s := by
  induction h with
  | init => exact ⟨by decide, by decide⟩
  | step t e _ ih => exact stepEvent_preserves_goodState t e ih

/-- C7: in every reachable state, an error from the paged-query
collaborator makes the response-handling step clear the in-flight flag
and change nothing else: accumulated list, has-more flag, page number
and last-loaded-page marker are all unchanged. -/
theorem error_response_clears_loading_only (s : ListState) (h : Reachable s) :
    (effectStep s .fetchError).isLoadingMore = false ∧
    (effectStep s .fetchError).allProducts = s.allProducts ∧
    (effectStep s .fetchError).hasMore = s.hasMore ∧
    (effectStep s .fetchError).page = s.page ∧
    (effectStep s .fetchError).lastLoadedPage = s.lastLoadedPage := by
  have hg := reachable_goodState s h
  by_cases hc : s.lastLoadedPage = s.page
  · have hload : s.isLoadingMore = false := by
      cases hl : s.isLoadingMore with
      | false => rfl
      | true => exact absurd hc (hg.2 hl)
    simp [effectStep, hc, hload]
  · simp [effectStep, hc]

theorem error_response_clears_loading_only_witness :
    (effectStep initialState .fetchError).isLoadingMore = false ∧
    (effectStep initialState .fetchError).allProducts = initialState.allProducts ∧
    (effectStep initialState .fetchError).hasMore = initialState.hasMore ∧
    (effectStep initialState .fetchError).page = initialState.page ∧
    (effectStep initialState .fetchError).lastLoadedPage
      = initialState.lastLoadedPage :=
  error_response_clears_loading_only initialState Reachable.init

/-- C10: identifier comparison is on the raw optional field, so two
absent identifiers compare equal; hence once the accumulated list holds
an item with an absent identifier, a later-page merge appends no
identifier-less response item (every identifier-less entry of the
result was already in the old list), the old list itself is retained in
place, and identifier-less entries are skipped only at render time. -/
theorem missing_id_items_never_reappended (s : ListState) (data : List Product)
    (hpage : 1 < s.page) (hguard : s.lastLoadedPage ≠ s.page)
    (hnone : ∃ p ∈ s.allProducts, p.id = none) :
    ((effectStep s (.dataArr data)).allProducts.take s.allProducts.length
      = s.allProducts) ∧
    (∀ q ∈ (effectStep s (.dataArr data)).allProducts,
      q.id = none → q ∈ s.allProducts) ∧
    (∀ p q : Product, p.id = none → q.id = none → (p.id == q.id) = true) ∧
    (∀ (l : List Product) (q : Product), q.id = none → q ∉ renderedProducts l) := by
  have h1 : ¬ s.page = 1 := by omega
  have hlist : (effectStep s (.dataArr data)).allProducts
      = s.allProducts ++ newUniqueProducts data s.allProducts := by
    simp [effectStep, hguard, mergeProducts, h1]
  refine ⟨?_, ?_, ?_, ?_⟩
  · rw [hlist]
    exact List.take_left _ _
  · intro q hq hqid
    rw [hlist] at hq
    rcases List.mem_append.mp hq with hq | hq
    · exact hq
    · exfalso
      unfold newUniqueProducts at hq
      have hf := (List.mem_filter.mp hq).2
      rcases hnone with ⟨p0, hp0mem, hp0id⟩
      have hany : s.allProducts.any (fun ex => ex.id == q.id) = true :=
        List.any_eq_true.mpr ⟨p0, hp0mem, by simp [hp0id, hqid]⟩
      simp [hany] at hf
  · intro p q hp hq
    rw [hp, hq]
    rfl
  · intro l q hqid hqmem
    unfold renderedProducts at hqmem
    have hf := (List.mem_filter.mp hqmem).2
    simp [idTruthy, hqid] at hf

theorem missing_id_items_never_reappended_witness :
    (effectStep
        { page := 2, hasMore := true, allProducts := [prodNoId],
          isLoadingMore := false, lastLoadedPage := 1 }
        (.dataArr [prodNoId2, prodB])).allProducts.take 1 = [prodNoId] :=
  (missing_id_items_never_reappended
    { page := 2, hasMore := true, allProducts := [prodNoId],
      isLoadingMore := false, lastLoadedPage := 1 }
    [prodNoId2, prodB] (by decide) (by decide)
    ⟨prodNoId, by decide, rfl⟩).1

end HewpaoFrontend
